import Mathlib

/-!
Verification development for the graphrag repository: a shallow embedding of
the Obsidian-vault indexer (`src/graphrag/indexer.py`), the file-watcher
service (`src/graphrag/services/file_watcher.py`) and the knowledge-graph
service (`src/graphrag/services/knowledge_graph.py`), together with theorems
settling the behavioural claims about parsing, indexing, debouncing and
graph synchronization.

Modelling conventions:
* Python strings are Lean `String`s (scanned as `List Char`); the regex
  scans of the source are implemented as explicit left-to-right scanners
  with exactly the source's non-overlapping `re.findall` semantics.
* Filesystem paths are `List String` (the `Path.parts` component list).
* The graph store is a record of node-set, edge-set and two property
  tables.  Every Cypher statement issued by the source is either MERGE of a
  node, MERGE-then-SET of a note's properties, or MATCH-MATCH-MERGE of an
  edge; the source never uses CREATE, so node/edge sets are `Finset`s and
  MERGE is insertion (match-or-create).  A MATCH that finds no node makes
  the whole statement a no-op, which the edge operation reflects.
* The indexer MERGEs Note nodes by the `path` property while the service
  MERGEs and MATCHes them by `file_path`, and neither component ever sets
  the other's property.  A MERGE/MATCH on a property map matches only
  nodes carrying exactly those properties, so the two components address
  disjoint `:Note` node populations in the store; the model keeps them
  apart as the constructors `NodeId.note` (indexer-keyed, by `path`) and
  `NodeId.snote` (service-keyed, by `file_path`).
-/

namespace GraphRAG

/-! ## Python string helpers -/

/-- ASCII whitespace recognised by both the Python regex class `\s` and
`str.strip` (Unicode whitespace beyond ASCII is not modelled; no source
behaviour relevant to the claims depends on it). -/
def isPyWS (c : Char) : Bool :=
  c = ' ' || c = '\t' || c = '\n' || c = '\r' || c = '\x0b' || c = '\x0c'

/-- Python `str.strip()` on a character list. -/
def pyStripL (l : List Char) : List Char :=
  ((l.dropWhile isPyWS).reverse.dropWhile isPyWS).reverse

/-- Python `str.strip()`. -/
def pyStrip (s : String) : String :=
  String.mk (pyStripL s.toList)

/-- Python `pat in s` substring test. -/
def strContains (s pat : String) : Bool :=
  s.toList.tails.any (fun t => pat.toList.isPrefixOf t)

/-- Python `s.startswith(pre)`. -/
def pyStartsWith (s pre : String) : Bool :=
  pre.toList.isPrefixOf s.toList

/-- Python `s.lower()` (ASCII case folding, which covers the extension
strings the source compares). -/
def pyLower (s : String) : String :=
  String.mk (s.toList.map Char.toLower)

/-- Python `s.split('\n')` (keeps empty pieces, like `String.splitOn`). -/
def splitOnNl : List Char → List (List Char)
  | [] => [[]]
  | c :: t =>
    match splitOnNl t with
    | [] => [[]]
    | cur :: rest => if c = '\n' then [] :: cur :: rest else (c :: cur) :: rest

/-- `pathlib.PurePath.suffix`: the extension of a file name, i.e. the part
of the name from its last dot on, provided that dot is neither the first
nor the last character (CPython: `i = name.rfind('.'); name[i:] if
0 < i < len(name) - 1 else ''`). -/
def pySuffix (name : String) : String :=
  let cs := name.toList
  let tail := cs.reverse.takeWhile (· ≠ '.')
  if tail.length = cs.length then ""
  else
    let i := cs.length - 1 - tail.length
    if 0 < i ∧ i < cs.length - 1 then String.mk ('.' :: tail.reverse) else ""

/-- `pathlib.PurePath.stem`: the file name with `pySuffix` removed. -/
def pyStem (name : String) : String :=
  String.mk (name.toList.take (name.toList.length - (pySuffix name).toList.length))

/-! ## NoteParser: the extraction functions of `ObsidianIndexer`
(`src/graphrag/indexer.py`) -/

/-- A character matched by the Python class `[a-zA-Z0-9_-]`. -/
def isTagChar (c : Char) : Bool :=
  c.isAlphanum || c = '_' || c = '-'

/-- `re.findall(r'#([a-zA-Z0-9_-]+)', content)`, fuelled: every
non-overlapping occurrence of `#` followed by a maximal non-empty run of
tag characters, captured without the `#`, scanning left to right
(`ObsidianIndexer.extract_tags`, content part).  Each step consumes at
least one character and recurses on a no-longer list, so fuel equal to the
list length never runs out; the fuel only makes the recursion structural
(and hence kernel-computable). -/
def findTagsF : Nat → List Char → List String
  | 0, _ => []
  | _ + 1, [] => []
  | fuel + 1, c :: rest =>
    if c = '#' ∧ rest.takeWhile isTagChar ≠ [] then
      String.mk (rest.takeWhile isTagChar)
        :: findTagsF fuel (rest.dropWhile isTagChar)
    else
      findTagsF fuel rest

/-- The `#tag` scan at full fuel. -/
def findTags (l : List Char) : List String := findTagsF l.length l

/-- One attempted match of the tail of `\[\[([^\]|]+)(?:\|([^\]]+))?\]\]`
starting just after a `[[`: the captured target and the characters after
the whole match.  The first group is a maximal non-empty run of characters
other than `]` and `|` (regex backtracking can never shorten it usefully,
since any shorter prefix is followed by another such character where the
regex requires `]` or `|`).  The remainder is never longer than the
input. -/
def tryILink (rest : List Char) : Option (List Char × List Char) :=
  let g1 := rest.takeWhile (fun c => c ≠ ']' ∧ c ≠ '|')
  if g1 = [] then none
  else
    match rest.dropWhile (fun c => c ≠ ']' ∧ c ≠ '|') with
    | ']' :: ']' :: r => some (g1, r)
    | '|' :: r2 =>
      let g2 := r2.takeWhile (· ≠ ']')
      if g2 = [] then none
      else
        match r2.dropWhile (· ≠ ']') with
        | ']' :: ']' :: r3 => some (g1, r3)
        | _ => none
    | _ => none

/-- `re.findall(r'\[\[([^\]|]+)(?:\|([^\]]+))?\]\]', content)` followed by
the source's per-match `strip` and non-empty filter
(`ObsidianIndexer.extract_internal_links`), fuelled as in `findTagsF`.
On a failed match the scan advances one character, exactly as
`re.findall` does. -/
def scanILinksF : Nat → List Char → List String
  | 0, _ => []
  | _ + 1, [] => []
  | fuel + 1, c :: rest =>
    if c = '[' then
      match rest with
      | [] => []
      | c2 :: rest2 =>
        if c2 = '[' then
          match tryILink rest2 with
          | some (g1, r) =>
            let s := pyStripL g1
            if s = [] then scanILinksF fuel r
            else String.mk s :: scanILinksF fuel r
          | none => scanILinksF fuel (c2 :: rest2)
        else scanILinksF fuel (c2 :: rest2)
    else scanILinksF fuel rest

/-- `ObsidianIndexer.extract_internal_links`. -/
def extract_internal_links (content : String) : List String :=
  scanILinksF content.toList.length content.toList

/-- One attempted match of the tail of `\[([^\]]+)\]\(([^)]+)\)` starting
just after a `[`: captured (text, url) and the characters after the match.
Both groups are forced to the maximal run before the closing delimiter, as
backtracking cannot produce any other successful match. -/
def tryELink (rest : List Char) : Option (List Char × List Char × List Char) :=
  let g1 := rest.takeWhile (· ≠ ']')
  if g1 = [] then none
  else
    match rest.dropWhile (· ≠ ']') with
    | ']' :: '(' :: r2 =>
      let g2 := r2.takeWhile (· ≠ ')')
      if g2 = [] then none
      else
        match r2.dropWhile (· ≠ ')') with
        | ')' :: r3 => some (g1, g2, r3)
        | _ => none
    | _ => none

/-- `re.findall(r'\[([^\]]+)\]\(([^)]+)\)', content)`: the raw captured
(text, url) pairs in scan order, fuelled as in `findTagsF`. -/
def scanELinksF : Nat → List Char → List (String × String)
  | 0, _ => []
  | _ + 1, [] => []
  | fuel + 1, c :: rest =>
    if c = '[' then
      match tryELink rest with
      | some (g1, g2, r) =>
        (String.mk g1, String.mk g2) :: scanELinksF fuel r
      | none => scanELinksF fuel rest
    else scanELinksF fuel rest

/-- The external-link scan at full fuel. -/
def scanELinks (l : List Char) : List (String × String) :=
  scanELinksF l.length l

/-- `ObsidianIndexer.extract_external_links`, as (text, url) pairs with the
source's per-match strips applied. -/
def extract_external_links (content : String) : List (String × String) :=
  (scanELinks content.toList).map (fun tu => (pyStrip tu.1, pyStrip tu.2))

/-- `re.match(r'^(#{1,6})\s+(.+)$', line.strip())` with the source's level
and stripped title extraction (`ObsidianIndexer.extract_headers`, one
line).  Returns `(level, title)`. -/
def parseHeaderLine (line : List Char) : Option (Nat × String) :=
  let l := pyStripL line
  let hashes := l.takeWhile (· = '#')
  if 1 ≤ hashes.length ∧ hashes.length ≤ 6 then
    let rest := l.dropWhile (· = '#')
    let ws := rest.takeWhile isPyWS
    let title := rest.dropWhile isPyWS
    if ws ≠ [] ∧ title ≠ [] then some (hashes.length, String.mk (pyStripL title))
    else none
  else none

/-- `ObsidianIndexer.extract_headers`: every line whose strip matches the
header regex, as `(level, title, line_number)` with 1-based line numbers
over `content.split('\n')`. -/
def extract_headers (content : String) : List (Nat × String × Nat) :=
  (splitOnNl content.toList).enum.filterMap
    (fun p => (parseHeaderLine p.2).map (fun lt => (lt.1, lt.2, p.1 + 1)))

/-- The possible shapes of a frontmatter field value that the source
distinguishes with `isinstance` checks: a single string, a list of strings,
or any other YAML value (which the indexer ignores and which is not
iterable for the watcher's `set(...)` call). -/
inductive FmValue where
  | str (s : String)
  | list (xs : List String)
  | other
deriving DecidableEq, Repr

/-- The frontmatter-tags contribution of `ObsidianIndexer.extract_tags`:
a list value contributes its elements, a single string contributes that
whole string, anything else contributes nothing. -/
def fm_tag_list : Option FmValue → List String
  | some (FmValue.list xs) => xs
  | some (FmValue.str s) => [s]
  | _ => []

/-- `ObsidianIndexer.extract_tags` as a duplicate-free list: the Python
set union of the frontmatter tags and the inline `#tag` matches.  (The
source returns `list(tags)` in unspecified set order; every downstream
graph write is order-insensitive, so a canonical order is used.) -/
def extract_tags_list (content : String) (fmTags : Option FmValue) : List String :=
  (fm_tag_list fmTags ++ findTags content.toList).dedup

/-- `ObsidianIndexer.extract_tags` as the set it builds. -/
def extract_tags (content : String) (fmTags : Option FmValue) : Finset String :=
  (extract_tags_list content fmTags).toFinset

/-- The tag set claimed by the specification (§4.1): union of (a) the
metadata tag field, a single string contributing that whole string and a
list contributing its strings, and (b) every inline token matching `#`
followed by one or more alphanumeric/underscore/hyphen characters. -/
def spec_tag_union (content : String) (fmTags : Option FmValue) : Finset String :=
  (match fmTags with
    | some (FmValue.list xs) => xs.toFinset
    | some (FmValue.str s) => {s}
    | _ => (∅ : Finset String))
  ∪ (findTags content.toList).toFinset

/-! ## File eligibility (`ObsidianIndexer.should_skip_directory`,
`ObsidianIndexer.should_process_file`, `Config.MAX_NOTE_SIZE`) -/

/-- `ObsidianIndexer.SKIP_DIRS`. -/
def SKIP_DIRS : List String :=
  [".obsidian", ".trash", ".git", ".svn", ".hg", "__pycache__",
   "node_modules", ".venv", "venv", "env", ".env", "build",
   "dist", "target", "bin", "obj", ".idea", ".vscode",
   "coverage", ".pytest_cache", ".mypy_cache", ".tox", ".eggs"]

/-- `ObsidianIndexer.should_skip_directory`: any skip pattern occurring as
a substring of the directory name. -/
def should_skip_directory (dir_name : String) : Bool :=
  SKIP_DIRS.any (fun pat => strContains dir_name pat)

/-- `ObsidianIndexer.OBSIDIAN_EXTENSIONS`. -/
def OBSIDIAN_EXTENSIONS : List String := [".md", ".markdown"]

/-- `ObsidianIndexer.should_process_file` on the file's final name
component: not hidden, and the lower-cased suffix is a markdown
extension. -/
def should_process_file (name : String) : Bool :=
  !(pyStartsWith name ".") && OBSIDIAN_EXTENSIONS.contains (pyLower (pySuffix name))

/-- `Config.MAX_NOTE_SIZE` default (100000 bytes). -/
def MAX_NOTE_SIZE : Nat := 100000

/-! ## Association lists (property tables and the watcher's tracking map)

`setEntry` writes a key in place (or appends a fresh key), matching the
semantics of assigning into a Python dict / SETting properties on a
matched node. -/

variable {κ α : Type} [DecidableEq κ]

/-- Write `k ↦ v`, replacing an existing binding in place. -/
def setEntry : List (κ × α) → κ → α → List (κ × α)
  | [], k, v => [(k, v)]
  | (q, w) :: t, k, v =>
    if q = k then (k, v) :: t else (q, w) :: setEntry t k v

/-- Look a key up. -/
def lookupEntry : List (κ × α) → κ → Option α
  | [], _ => none
  | (q, w) :: t, k => if q = k then some w else lookupEntry t k

/-- Delete a key (`del d[k]` / deleting a node and its properties). -/
def removeEntry (l : List (κ × α)) (k : κ) : List (κ × α) :=
  l.filter (fun e => e.1 ≠ k)

/-! ## The property graph -/

/-- A filesystem path as its component list (`pathlib.Path.parts`). -/
abbrev FsPath := List String

/-- Graph node identities, by label and natural MERGE key, exactly as the
source's MERGE statements key them: Folder by `path` (its `name` is the
path's last component and `full_path` equals `path`, so they add nothing
to the key), Tag by `name`, InternalLink by `name`, ExternalLink by
`(url, text)`, Header by `(title, level)`.  `:Note` nodes come in two
disjoint populations: `note` is a node the indexer MERGEs by its `path`
property (`ObsidianIndexer.create_note_node`), `snote` one the service
MERGEs/MATCHes by its `file_path` property
(`KnowledgeGraphService.create_note_node`/`delete_note`).  Neither
component sets the other's key property, so no statement of one component
ever matches a node of the other population. -/
inductive NodeId where
  | folder (p : FsPath)
  | note (p : FsPath)
  | snote (p : FsPath)
  | tag (name : String)
  | ilink (name : String)
  | elink (url text : String)
  | header (title : String) (level : Nat)
deriving DecidableEq, Repr

/-- Relationship types appearing in the source's MERGE edge statements. -/
inductive RelType where
  | CONTAINS
  | TAGGED_WITH
  | LINKS_TO
  | HAS_HEADER
  | LINKS_TO_EXTERNAL
deriving DecidableEq, Repr

/-- Properties SET on a Note node by `ObsidianIndexer.create_note_node`. -/
structure NoteAttrs where
  name : String
  title : String
  content : String
  hash : String
  size : Nat
  created : Nat
  modified : Nat
  accessed : Nat
  is_readonly : Bool
  aliases : List String
  frontmatterStr : String
deriving DecidableEq, Repr

/-- Properties SET on a Note node by
`KnowledgeGraphService.create_note_node` (the watcher's upsert): note that
`tags` and `links` are stored as plain node properties here, not as edges.
The stored list order is Python set-iteration order, modelled as the set. -/
structure ServiceNoteAttrs where
  title : String
  content : String
  tags : Finset String
  links : Finset String
  last_modified : Nat
deriving DecidableEq

/-- The graph store.  The source only ever MERGEs nodes and edges
(match-or-create), so both live in `Finset`s; `attrs` holds the properties
the indexer SETs on its `path`-keyed Note nodes and `sattrs` those the
service SETs on its `file_path`-keyed Note nodes. -/
structure Graph where
  nodes : Finset NodeId
  edges : Finset (NodeId × RelType × NodeId)
  attrs : List (FsPath × NoteAttrs)
  sattrs : List (FsPath × ServiceNoteAttrs)
deriving DecidableEq

/-- The empty store. -/
def emptyGraph : Graph := ⟨∅, ∅, [], []⟩

/-- One Cypher statement issued by the indexer: `MERGE (node)`,
`MERGE (n:Note {path}) SET ...`, or `MATCH a MATCH b MERGE (a)-[r]->(b)`. -/
inductive Op where
  | mergeNode (n : NodeId)
  | setAttrs (p : FsPath) (a : NoteAttrs)
  | matchMergeEdge (src : NodeId) (r : RelType) (dst : NodeId)
deriving DecidableEq, Repr

/-- Semantics of one statement.  A MATCH clause that finds no node yields
zero rows, so the MERGE of the edge then does nothing — hence the
membership guard. -/
def applyOp (g : Graph) : Op → Graph
  | Op.mergeNode n => { g with nodes := insert n g.nodes }
  | Op.setAttrs p a => { g with attrs := setEntry g.attrs p a }
  | Op.matchMergeEdge s r d =>
    if s ∈ g.nodes ∧ d ∈ g.nodes then
      { g with edges := insert (s, r, d) g.edges }
    else g

/-- Run a statement sequence. -/
def applyOps (ops : List Op) (g : Graph) : Graph :=
  ops.foldl applyOp g

/-! ## The indexer as statement sequences (`ObsidianIndexer`) -/

/-- One markdown file as the indexer observes it: its name, the parse
result `get_note_content` would produce (`body`, frontmatter fields), the
`calculate_note_hash` digest, the `get_note_stats` record, and failure
flags: `readFails` (the `open`/decode/frontmatter pipeline raises inside
`get_note_content`, which catches and returns None), `isEmpty` (empty raw
bytes, also None), `storeFails` (the graph store raises during
`create_note_node`/`create_note_relationships`; caught by `index_vault`'s
per-file handler; its partial write effect is not modelled since no claim
depends on it). -/
structure FileRec where
  name : String
  body : String
  fmTags : Option FmValue
  fmTitle : Option String
  fmAliases : Option FmValue
  frontmatterStr : String
  hash : String
  size : Nat
  created : Nat
  modified : Nat
  accessed : Nat
  is_readonly : Bool
  readFails : Bool
  isEmpty : Bool
  storeFails : Bool
deriving DecidableEq, Repr

/-- A trivially-valued file record, for concrete test inputs. -/
def plainFile (name body : String) : FileRec :=
  ⟨name, body, none, none, none, "{}", "h", 1, 0, 0, 0, false, false, false, false⟩

/-- The aliases normalization of `create_note_node`: `get('aliases', [])`,
a single string wrapped into a one-element list. -/
def aliasesOf : Option FmValue → List String
  | some (FmValue.list xs) => xs
  | some (FmValue.str s) => [s]
  | _ => []

/-- The properties `create_note_node` SETs for a file. -/
def attrsOf (f : FileRec) : NoteAttrs :=
  { name := f.name
    title := f.fmTitle.getD (pyStem f.name)
    content := f.body
    hash := f.hash
    size := f.size
    created := f.created
    modified := f.modified
    accessed := f.accessed
    is_readonly := f.is_readonly
    aliases := aliasesOf f.fmAliases
    frontmatterStr := f.frontmatterStr }

/-- MERGE-node / MATCH-MATCH-MERGE-edge pairs for one vocabulary list, as
`_create_content_relationships` emits them for each extracted item. -/
def vocabOps (src : NodeId) (r : RelType) (vs : List NodeId) : List Op :=
  vs.flatMap (fun v => [Op.mergeNode v, Op.matchMergeEdge src r v])

/-- `ObsidianIndexer._create_content_relationships`: internal links, then
tags, then headers, then external links; for each item MERGE the
vocabulary node, then MATCH note/vocabulary and MERGE the edge. -/
def contentOps (p : FsPath) (body : String) (fmTags : Option FmValue) : List Op :=
  vocabOps (NodeId.note p) RelType.LINKS_TO
      ((extract_internal_links body).map NodeId.ilink)
    ++ vocabOps (NodeId.note p) RelType.TAGGED_WITH
      ((extract_tags_list body fmTags).map NodeId.tag)
    ++ vocabOps (NodeId.note p) RelType.HAS_HEADER
      ((extract_headers body).map (fun h => NodeId.header h.2.1 h.1))
    ++ vocabOps (NodeId.note p) RelType.LINKS_TO_EXTERNAL
      ((extract_external_links body).map (fun tu => NodeId.elink tu.2 tu.1))

/-- The note path `root_path / file_name`. -/
def notePathOf (dirpath : FsPath) (f : FileRec) : FsPath :=
  dirpath ++ [f.name]

/-- `create_note_node` (MERGE the Note by path, SET its properties)
followed by `create_note_relationships` (MATCH folder and note, MERGE the
CONTAINS edge; then the content relationships). -/
def fileOps (dirpath : FsPath) (f : FileRec) : List Op :=
  let p := notePathOf dirpath f
  Op.mergeNode (NodeId.note p)
    :: Op.setAttrs p (attrsOf f)
    :: Op.matchMergeEdge (NodeId.folder dirpath) RelType.CONTAINS (NodeId.note p)
    :: contentOps p f.body f.fmTags

/-- The chain loop of `create_folder_nodes`: starting from the one-part
root prefix, each further part MERGEs the extended prefix's Folder node
and, from the second created folder on (`i > 1` in the source), MERGEs a
CONTAINS edge from its parent.  The one-part prefix itself is never
created as a node. -/
def folderChainOps (cur : FsPath) : List String → Bool → List Op
  | [], _ => []
  | d :: rest, hasParent =>
    Op.mergeNode (NodeId.folder (cur ++ [d]))
      :: ((if hasParent then
            [Op.matchMergeEdge (NodeId.folder cur) RelType.CONTAINS
              (NodeId.folder (cur ++ [d]))]
          else [])
          ++ folderChainOps (cur ++ [d]) rest true)

/-- `ObsidianIndexer.create_folder_nodes` on a path's part list. -/
def create_folder_nodes_ops (parts : FsPath) : List Op :=
  match parts with
  | [] => []
  | r :: rest => folderChainOps [r] rest false

/-- One `os.walk` entry: the directory's absolute path, its (unfiltered)
subdirectory names, and its files in listing order. -/
structure WalkEntry where
  dirpath : FsPath
  dirnames : List String
  files : List FileRec
deriving DecidableEq

/-- A vault to index: the root path and the `os.walk` output.  (Pruning of
skipped directories shows up as those entries being absent from `walk`;
`os.walk` guarantees top-down order, which the idempotence theorem takes
as an explicit hypothesis on the generated statement list.) -/
structure Vault where
  root : FsPath
  walk : List WalkEntry
deriving DecidableEq

/-- Whether `index_vault`'s per-file loop reaches the graph writes for a
file: eligible name, and `get_note_content` returned content. -/
def fileIsProcessed (f : FileRec) : Bool :=
  should_process_file f.name && !(f.readFails || f.isEmpty)

/-- The statements the per-file loop body issues for one file: none when
the file is skipped, and none when the store raises (`storeFails`; the
failed call's partial effect is not modelled). -/
def fileOpsGuarded (dirpath : FsPath) (f : FileRec) : List Op :=
  if fileIsProcessed f && !f.storeFails then fileOps dirpath f else []

/-- The statements issued while visiting one walk entry: folder chains for
the non-skipped subdirectories, then the files. -/
def entryOps (e : WalkEntry) : List Op :=
  (e.dirnames.filter (fun d => !should_skip_directory d)).flatMap
      (fun d => create_folder_nodes_ops (e.dirpath ++ [d]))
    ++ e.files.flatMap (fun f => fileOpsGuarded e.dirpath f)

/-- Every statement `index_vault` issues: the root folder chain, then the
walk entries in order. -/
def vaultOps (v : Vault) : List Op :=
  create_folder_nodes_ops v.root ++ v.walk.flatMap entryOps

/-- The statistics record `index_vault` returns, with the source's field
names. -/
structure Stats where
  folders_processed : Nat
  notes_processed : Nat
  notes_skipped : Nat
  errors : Nat
  total_links : Nat
  total_tags : Nat
  total_headers : Nat
deriving DecidableEq, Repr

/-- The per-file statistics update of `index_vault`'s loop body: ineligible
names and files whose `get_note_content` returns None are counted skipped;
a store failure is caught by the per-file handler and counted as an error;
otherwise the note counts as processed and the link/tag/header totals grow
by the source's re-extraction counts (`len` of the link and header lists,
set size for tags). -/
def fileStats (f : FileRec) (st : Stats) : Stats :=
  if !should_process_file f.name then
    { st with notes_skipped := st.notes_skipped + 1 }
  else if f.readFails || f.isEmpty then
    { st with notes_skipped := st.notes_skipped + 1 }
  else if f.storeFails then
    { st with errors := st.errors + 1 }
  else
    { st with
      notes_processed := st.notes_processed + 1
      total_links := st.total_links + (extract_internal_links f.body).length
      total_tags := st.total_tags + (extract_tags_list f.body f.fmTags).length
      total_headers := st.total_headers + (extract_headers f.body).length }

/-- The statistics update for one walk entry: each non-skipped
subdirectory counts as a processed folder, then the files. -/
def entryStats (e : WalkEntry) (st : Stats) : Stats :=
  e.files.foldl (fun st f => fileStats f st)
    { st with
      folders_processed :=
        st.folders_processed
          + (e.dirnames.filter (fun d => !should_skip_directory d)).length }

/-- The initial statistics: the root folder is counted before the walk. -/
def initStats : Stats := ⟨1, 0, 0, 0, 0, 0, 0⟩

/-- `ObsidianIndexer.index_vault`: create the root folder chain, then for
each walk entry create the subdirectory folder chains and process the
files, accumulating graph writes and statistics. -/
def index_vault (v : Vault) (g : Graph) : Graph × Stats :=
  v.walk.foldl
    (fun gs e => (applyOps (entryOps e) gs.1, entryStats e gs.2))
    (applyOps (create_folder_nodes_ops v.root) g, initStats)

/-! ## KnowledgeGraphService (`services/knowledge_graph.py`) -/

/-- `KnowledgeGraphService.delete_note`:
`MATCH (n:Note {file_path}) OPTIONAL MATCH (n)-[r]-() DELETE r, n` —
the MATCH finds only a Note node carrying the `file_path` property, i.e.
one created by the service's own `create_note_node`; a Note node the
indexer MERGEd by `path` has no `file_path` property and is never
matched.  If a service note exists at the path, it, its properties, and
every edge incident to it in either direction are deleted; otherwise the
statement does nothing. -/
def delete_note (g : Graph) (p : FsPath) : Graph :=
  if NodeId.snote p ∈ g.nodes then
    { nodes := g.nodes.erase (NodeId.snote p)
      edges := g.edges.filter
        (fun e => e.1 ≠ NodeId.snote p ∧ e.2.2 ≠ NodeId.snote p)
      attrs := g.attrs
      sattrs := removeEntry g.sattrs p }
  else g

/-- The `models.Note` record the watcher builds. -/
structure WNote where
  file_path : FsPath
  title : String
  content : String
  tags : Finset String
  links : Finset String
  last_modified : Nat
deriving DecidableEq

/-- `KnowledgeGraphService.create_note_node`:
`MERGE (n:Note {file_path}) SET ...` — upsert the service's
`file_path`-keyed Note node and set its properties (`tags` and `links`
are stored as plain node properties).  No relationship of any kind is
created or removed, and an indexer-created `path`-keyed note at the same
path is a different node, untouched by this statement. -/
def kg_create_note_node (g : Graph) (n : WNote) : Graph :=
  { g with
    nodes := insert (NodeId.snote n.file_path) g.nodes
    sattrs := setEntry g.sattrs n.file_path
      ⟨n.title, n.content, n.tags, n.links, n.last_modified⟩ }

/-! ## The watcher's note reader (`FileWatcherService._read_note_file`) -/

/-- One attempted match of the tail of `\[\[([^\]]+)\]\]` just after a
`[[` for the watcher's `_extract_links` (whose wiki-link regex, unlike the
indexer's, has no `|` handling). -/
def tryWikiLink (rest : List Char) : Option (List Char × List Char) :=
  let g1 := rest.takeWhile (· ≠ ']')
  if g1 = [] then none
  else
    match rest.dropWhile (· ≠ ']') with
    | ']' :: ']' :: r => some (g1, r)
    | _ => none

/-- `re.findall(r'\[\[([^\]]+)\]\]', content)`, fuelled as in
`findTagsF`. -/
def scanWikiLinksF : Nat → List Char → List String
  | 0, _ => []
  | _ + 1, [] => []
  | fuel + 1, c :: rest =>
    if c = '[' then
      match rest with
      | [] => []
      | c2 :: rest2 =>
        if c2 = '[' then
          match tryWikiLink rest2 with
          | some (g1, r) => String.mk g1 :: scanWikiLinksF fuel r
          | none => scanWikiLinksF fuel (c2 :: rest2)
        else scanWikiLinksF fuel (c2 :: rest2)
    else scanWikiLinksF fuel rest

/-- `FileWatcherService._extract_links`: the set union of the wiki-link
captures and the external-link text captures (both unstripped). -/
def wExtractLinks (content : String) : Finset String :=
  (scanWikiLinksF content.toList.length content.toList).toFinset
    ∪ ((scanELinks content.toList).map (fun tu => tu.1)).toFinset

/-- `set(frontmatter.get('tags', []))` in `_read_note_file`: an absent
field gives the empty set, a list its elements, and a string is iterated
character by character (Python `set` of a `str` is its one-character
substrings); a non-iterable value raises `TypeError`, which the method's
handler turns into a failed read (`None`). -/
def watcher_fm_tags : Option FmValue → Option (Finset String)
  | none => some ∅
  | some (FmValue.list xs) => some xs.toFinset
  | some (FmValue.str s) =>
    some (s.toList.map (fun c => String.mk [c])).toFinset
  | some FmValue.other => none

/-- One markdown file as the watcher observes it: its path, `stat` size
and mtime, and the `_parse_frontmatter` output (body plus frontmatter
fields; the YAML parse itself is the external library). -/
structure WFile where
  path : FsPath
  size : Nat
  body : String
  fmTags : Option FmValue
  fmTitle : Option String
  mtime : Nat
deriving DecidableEq

/-- The last path component. -/
def lastName (p : FsPath) : String := p.getLastD ""

/-- `FileWatcherService._read_note_file`: the size check against
`Config.MAX_NOTE_SIZE` happens first, before any content is read or
parsed; an oversized file yields `None`.  Otherwise the note record is
built from the parsed frontmatter and body. -/
def read_note_file (f : WFile) : Option WNote :=
  if MAX_NOTE_SIZE < f.size then none
  else
    match watcher_fm_tags f.fmTags with
    | none => none
    | some tags =>
      some
        { file_path := f.path
          title := f.fmTitle.getD (pyStem (lastName f.path))
          content := f.body
          tags := tags
          links := wExtractLinks f.body
          last_modified := f.mtime }

/-! ## The watcher's event handling (`FileWatcherService._handle_file_change`)

The handler keeps a `last_modified` dict from path to the time of the last
event it dispatched.  An incoming event whose time is within
`debounce_delay` of that entry is dropped entirely; otherwise the entry is
set to the event's time and the event is dispatched at once:
created/modified to `_process_note_update`, deleted and moved to
`_process_note_deletion` (which also removes the path's tracking entry).
There is no timer: the `debounce_timer` attribute the constructor
initialises is never used. -/

/-- The raw event kinds the handler receives. -/
inductive EventType where
  | created
  | modified
  | deleted
  | moved
deriving DecidableEq, Repr

/-- A dispatch to the downstream synchronization methods. -/
inductive SyncCall where
  | update (p : FsPath)
  | delete (p : FsPath)
deriving DecidableEq, Repr

/-- `FileWatcherService.debounce_delay` (2.0 seconds).  Event times are
modelled as integers (`time.time()` is a float; integer-valued instants
express every ordering and window relation the claims involve, and floats
have no shallow embedding). -/
def debounce_delay : ℤ := 2

/-- The handler's mutable state: the `last_modified` tracking dict and the
ordered log of dispatches made so far. -/
structure WatcherState where
  last_modified : List (FsPath × ℤ)
  calls : List SyncCall
deriving DecidableEq

/-- The dispatch step once the throttle check has passed: record the event
time, then invoke the processing method for the kind; deletion (and a
move, which the handler treats as deletion of the old path) removes the
path's tracking entry again. -/
def handle_dispatch (s : WatcherState) (t : ℤ) (p : FsPath) (e : EventType) :
    WatcherState :=
  let lm := setEntry s.last_modified p t
  match e with
  | EventType.created => ⟨lm, s.calls ++ [SyncCall.update p]⟩
  | EventType.modified => ⟨lm, s.calls ++ [SyncCall.update p]⟩
  | EventType.deleted => ⟨removeEntry lm p, s.calls ++ [SyncCall.delete p]⟩
  | EventType.moved => ⟨removeEntry lm p, s.calls ++ [SyncCall.delete p]⟩

/-- `FileWatcherService._handle_file_change` for one event at time `t`:
dropped when within `debounce_delay` of the path's tracked time,
dispatched immediately otherwise — for every event kind alike. -/
def handle_file_change (s : WatcherState) (t : ℤ) (p : FsPath) (e : EventType) :
    WatcherState :=
  match lookupEntry s.last_modified p with
  | some t0 => if t - t0 < debounce_delay then s else handle_dispatch s t p e
  | none => handle_dispatch s t p e

/-- Run the handler over a timed event trace. -/
def watcherRun (evs : List (ℤ × FsPath × EventType)) (s : WatcherState) :
    WatcherState :=
  evs.foldl (fun s ev => handle_file_change s ev.1 ev.2.1 ev.2.2) s

/-! ## Observers and side conditions used by the theorems -/

/-- The targets of a note's outgoing edges of one relationship kind. -/
def noteTargets (g : Graph) (p : FsPath) (r : RelType) : Finset NodeId :=
  (g.edges.filter (fun e => e.1 = NodeId.note p ∧ e.2.1 = r)).image
    (fun e => e.2.2)

/-- The vocabulary-edge targets a note's current parsed content implies
for each relationship kind (the extraction results of
`_create_content_relationships`). -/
def impliedTargets (body : String) (fmTags : Option FmValue) : RelType → Finset NodeId
  | RelType.LINKS_TO =>
    ((extract_internal_links body).map NodeId.ilink).toFinset
  | RelType.TAGGED_WITH =>
    ((extract_tags_list body fmTags).map NodeId.tag).toFinset
  | RelType.HAS_HEADER =>
    ((extract_headers body).map (fun h => NodeId.header h.2.1 h.1)).toFinset
  | RelType.LINKS_TO_EXTERNAL =>
    ((extract_external_links body).map (fun tu => NodeId.elink tu.2 tu.1)).toFinset
  | RelType.CONTAINS => ∅

/-- For a MATCH-MATCH-MERGE-edge statement: if an endpoint is ever present
in the final graph of a run, it was already present when the statement
executed.  (For the statement lists `index_vault` generates this is what
`os.walk`'s top-down order guarantees: a folder's node is merged before
any entry under it matches the folder.) -/
def opPre (fin pre : Graph) : Op → Prop
  | Op.matchMergeEdge s _ d =>
    (s ∈ fin.nodes → s ∈ pre.nodes) ∧ (d ∈ fin.nodes → d ∈ pre.nodes)
  | _ => True

instance decOpPre (fin pre : Graph) : (op : Op) → Decidable (opPre fin pre op)
  | Op.mergeNode _ => isTrue trivial
  | Op.setAttrs _ _ => isTrue trivial
  | Op.matchMergeEdge s _ d =>
    inferInstanceAs
      (Decidable ((s ∈ fin.nodes → s ∈ pre.nodes) ∧ (d ∈ fin.nodes → d ∈ pre.nodes)))

/-- Every edge statement of the list satisfies `opPre` with respect to the
prefix executed before it. -/
def Preconditioned (ops : List Op) (g : Graph) : Prop :=
  ∀ i : Fin ops.length,
    opPre (applyOps ops g) (applyOps (ops.take i.1) g) (ops.get i)

instance (ops : List Op) (g : Graph) : Decidable (Preconditioned ops g) :=
  inferInstanceAs
    (Decidable (∀ i : Fin ops.length,
      opPre (applyOps ops g) (applyOps (ops.take i.1) g) (ops.get i)))

/-- The SET statement of an op, if it is one. -/
def isSetAttrs : Op → Option (FsPath × NoteAttrs)
  | Op.setAttrs p a => some (p, a)
  | _ => none

/-- Two SET statements never write different property records to the same
note path. -/
def keyOk : Option (FsPath × NoteAttrs) → Option (FsPath × NoteAttrs) → Prop
  | some pa, some pb => pa.1 = pb.1 → pa.2 = pb.2
  | some _, none => True
  | none, some _ => True
  | none, none => True

instance decKeyOk :
    (x y : Option (FsPath × NoteAttrs)) → Decidable (keyOk x y)
  | some pa, some pb => inferInstanceAs (Decidable (pa.1 = pb.1 → pa.2 = pb.2))
  | some _, none => isTrue trivial
  | none, some _ => isTrue trivial
  | none, none => isTrue trivial

/-- All SET statements of the list agree on keys.  (For `index_vault`'s
lists this holds because distinct files have distinct paths, so each note
path is SET by exactly one file's statement.) -/
def KeyConsistent (ops : List Op) : Prop :=
  ∀ i j : Fin ops.length, keyOk (isSetAttrs (ops.get i)) (isSetAttrs (ops.get j))

instance (ops : List Op) : Decidable (KeyConsistent ops) :=
  inferInstanceAs
    (Decidable (∀ i j : Fin ops.length,
      keyOk (isSetAttrs (ops.get i)) (isSetAttrs (ops.get j))))

/-- All files of all walk entries, in visit order. -/
def allFiles (v : Vault) : List FileRec :=
  v.walk.flatMap (fun e => e.files)

/-- The statistics of an index run, which depend only on the walked tree,
never on the graph contents. -/
def vaultStats (v : Vault) : Stats :=
  v.walk.foldl (fun st e => entryStats e st) initStats

/-- Whether `index_vault`'s per-file loop takes the error branch for a
file: the store raised after a successful read. -/
def fileIsError (f : FileRec) : Bool :=
  fileIsProcessed f && f.storeFails

/-- Whether the per-file loop completes the file successfully. -/
def fileIsOk (f : FileRec) : Bool :=
  fileIsProcessed f && !f.storeFails

/-! ## Concrete inputs for counterexamples and witnesses -/

/-- A directory, as the parts of the absolute path `/v`. -/
def cexDir : FsPath := ["/", "v"]

/-- First version of a note whose body yields tags `{a, b}`. -/
def cexF1 : FileRec := plainFile "n.md" "#a #b"

/-- Second version of the same note, yielding tags `{b, c}`. -/
def cexF2 : FileRec := plainFile "n.md" "#b #c"

/-- The note's path. -/
def cexNotePath : FsPath := ["/", "v", "n.md"]

/-- The graph after first indexing the note. -/
def cexG1 : Graph := applyOps (fileOps cexDir cexF1) emptyGraph

/-- The graph after re-synchronizing the changed note. -/
def cexG2 : Graph := applyOps (fileOps cexDir cexF2) cexG1

/-- A file one byte over `MAX_NOTE_SIZE`. -/
def bigFile : FileRec := { plainFile "big.md" "hello" with size := 100001 }

/-- A vault containing only the oversized file. -/
def bigVault : Vault := ⟨["/", "v"], [⟨["/", "v"], [], [bigFile]⟩]⟩

/-- The oversized file as the watcher sees it. -/
def bigWFile : WFile := ⟨["/", "v", "big.md"], 100001, "hello", none, none, 0⟩

/-- A small in-bounds file as the watcher sees it. -/
def smallWFile : WFile := ⟨["/", "v", "s.md"], 5, "hi", none, none, 0⟩

/-- Note `a` sharing tag `x` with note `b`. -/
def c5fA : FileRec := plainFile "a.md" "#x #y"

/-- Note `b` sharing tag `x` with note `a`. -/
def c5fB : FileRec := plainFile "b.md" "#x"

/-- Path of note `a`. -/
def c5pA : FsPath := ["/", "v", "a.md"]

/-- Path of note `b`. -/
def c5pB : FsPath := ["/", "v", "b.md"]

/-- Graph built by indexing both notes: `path`-keyed Note nodes with
their TAGGED_WITH edges, and no `file_path`-keyed note anywhere. -/
def c5Graph : Graph :=
  applyOps (fileOps cexDir c5fA ++ fileOps cexDir c5fB) emptyGraph

/-- A watcher-side file with an inline tag and no frontmatter tags. -/
def c7WFile : WFile := ⟨["/", "v", "t.md"], 6, "#topic", none, none, 0⟩

/-- A two-level vault for the idempotence witness. -/
def c8Vault : Vault :=
  ⟨["/", "v"],
   [⟨["/", "v"], ["notes"], [plainFile "a.md" "#t [[b]]\n# Intro\n[x](http://e)"]⟩,
    ⟨["/", "v", "notes"], [], [plainFile "n.md" "plain #t"]⟩]⟩

/-- A file whose read raises inside `get_note_content`. -/
def c9bad : FileRec := { plainFile "bad.md" "x" with readFails := true }

/-- A vault with a read-failing file followed by a healthy one. -/
def c9Vault : Vault := ⟨["/", "v"], [⟨["/", "v"], [], [c9bad, plainFile "ok.md" "hi"]⟩]⟩

/-- A graph with one tag node and no note at the probed path. -/
def c10Graph : Graph := ⟨{NodeId.tag "x"}, ∅, [], []⟩

/-- A probed path with no note. -/
def c10Path : FsPath := ["/", "v", "gone.md"]

/-- The path used in the watcher traces. -/
def wPath : FsPath := ["/", "v", "a.md"]

/-- The watcher's initial state: empty tracking dict, no dispatches. -/
def wInit : WatcherState := ⟨[], []⟩

/-! ## Association-list lemmas -/

theorem lookupEntry_setEntry_self (l : List (κ × α)) (k : κ) (v : α) :
    lookupEntry (setEntry l k v) k = some v := by
  induction l with
  | nil => simp [setEntry, lookupEntry]
  | cons e t ih =>
    by_cases h : e.1 = k
    · simp [setEntry, lookupEntry, h]
    · simp [setEntry, lookupEntry, h, ih]

theorem lookupEntry_setEntry_ne (l : List (κ × α)) {k k' : κ} (v : α)
    (h : k' ≠ k) : lookupEntry (setEntry l k v) k' = lookupEntry l k' := by
  induction l with
  | nil => simp [setEntry, lookupEntry, Ne.symm h]
  | cons e t ih =>
    by_cases he : e.1 = k
    · subst he
      simp [setEntry, lookupEntry, h, Ne.symm h]
    · by_cases he' : e.1 = k'
      · simp [setEntry, lookupEntry, h, he, he']
      · simp [setEntry, lookupEntry, h, he, he', ih]

theorem setEntry_eq_self {l : List (κ × α)} {k : κ} {v : α}
    (h : lookupEntry l k = some v) : setEntry l k v = l := by
  induction l with
  | nil => simp [lookupEntry] at h
  | cons e t ih =>
    obtain ⟨k1, v1⟩ := e
    by_cases he : k1 = k
    · subst he
      simp [lookupEntry] at h
      simp [setEntry, h]
    · simp only [lookupEntry, if_neg he] at h
      simp [setEntry, he, ih h]

/-! ## Statement-sequence lemmas -/

theorem applyOps_append (l1 l2 : List Op) (g : Graph) :
    applyOps (l1 ++ l2) g = applyOps l2 (applyOps l1 g) := by
  simp [applyOps, List.foldl_append]

theorem applyOps_cons (op : Op) (l : List Op) (g : Graph) :
    applyOps (op :: l) g = applyOps l (applyOp g op) := rfl

theorem applyOp_sattrs (g : Graph) (op : Op) : (applyOp g op).sattrs = g.sattrs := by
  cases op with
  | mergeNode n => rfl
  | setAttrs p a => rfl
  | matchMergeEdge s r d =>
    simp only [applyOp]
    split <;> rfl

theorem mem_nodes_applyOp {g : Graph} {n : NodeId} (h : n ∈ g.nodes) (op : Op) :
    n ∈ (applyOp g op).nodes := by
  cases op with
  | mergeNode m => exact Finset.mem_insert_of_mem h
  | setAttrs p a => exact h
  | matchMergeEdge s r d =>
    simp only [applyOp]
    split <;> exact h

theorem mem_nodes_applyOps {g : Graph} {n : NodeId} (h : n ∈ g.nodes) (ops : List Op) :
    n ∈ (applyOps ops g).nodes := by
  induction ops generalizing g with
  | nil => exact h
  | cons op t ih => exact ih (mem_nodes_applyOp h op)

theorem mem_edges_applyOp {g : Graph} {e : NodeId × RelType × NodeId}
    (h : e ∈ g.edges) (op : Op) : e ∈ (applyOp g op).edges := by
  cases op with
  | mergeNode m => exact h
  | setAttrs p a => exact h
  | matchMergeEdge s r d =>
    simp only [applyOp]
    split
    · exact Finset.mem_insert_of_mem h
    · exact h

theorem mem_edges_applyOps {g : Graph} {e : NodeId × RelType × NodeId}
    (h : e ∈ g.edges) (ops : List Op) : e ∈ (applyOps ops g).edges := by
  induction ops generalizing g with
  | nil => exact h
  | cons op t ih => exact ih (mem_edges_applyOp h op)

theorem lookup_attrs_applyOps {g : Graph} {p : FsPath} {a : NoteAttrs}
    (ops : List Op) (h : lookupEntry g.attrs p = some a)
    (hnone : ∀ op ∈ ops, ∀ b, isSetAttrs op = some (p, b) → b = a) :
    lookupEntry (applyOps ops g).attrs p = some a := by
  induction ops generalizing g with
  | nil => exact h
  | cons op t ih =>
    rw [applyOps_cons]
    refine ih ?_ (fun o ho b hb => hnone o (List.mem_cons_of_mem _ ho) b hb)
    cases op with
    | mergeNode m => exact h
    | matchMergeEdge s r d =>
      have : (applyOp g (Op.matchMergeEdge s r d)).attrs = g.attrs := by
        simp only [applyOp]
        split <;> rfl
      rw [this]
      exact h
    | setAttrs q b =>
      by_cases hq : q = p
      · subst hq
        have hb : b = a := hnone _ (List.mem_cons_self _ _) b rfl
        subst hb
        simpa [applyOp] using lookupEntry_setEntry_self g.attrs q b
      · simpa [applyOp] using
          (lookupEntry_setEntry_ne g.attrs b (Ne.symm hq)).trans h

theorem applyOp_fix_mergeNode {g : Graph} {n : NodeId} (h : n ∈ g.nodes) :
    applyOp g (Op.mergeNode n) = g := by
  simp [applyOp, Finset.insert_eq_self.2 h]

theorem applyOp_fix_setAttrs {g : Graph} {p : FsPath} {a : NoteAttrs}
    (h : lookupEntry g.attrs p = some a) : applyOp g (Op.setAttrs p a) = g := by
  simp [applyOp, setEntry_eq_self h]

theorem applyOp_fix_edge {g : Graph} {s d : NodeId} {r : RelType}
    (h : s ∈ g.nodes → d ∈ g.nodes → (s, r, d) ∈ g.edges) :
    applyOp g (Op.matchMergeEdge s r d) = g := by
  simp only [applyOp]
  split
  · next hc => simp [Finset.insert_eq_self.2 (h hc.1 hc.2)]
  · rfl

theorem applyOps_fix {g : Graph} {ops : List Op}
    (h : ∀ op ∈ ops, applyOp g op = g) : applyOps ops g = g := by
  induction ops with
  | nil => rfl
  | cons op t ih =>
    rw [applyOps_cons, h op (List.mem_cons_self _ _)]
    exact ih (fun o ho => h o (List.mem_cons_of_mem _ ho))

/-- Replaying a statement list on its own result changes nothing, provided
every edge statement's endpoints were present no later than the statement
itself ran (`Preconditioned`) and SET statements agree on keys
(`KeyConsistent`).  The final state fixes each statement: merged nodes and
edges are still present, and each note's properties already hold the
values its SET statement writes. -/
theorem applyOps_idem (ops : List Op) (g : Graph)
    (hpre : Preconditioned ops g) (hkc : KeyConsistent ops) :
    applyOps ops (applyOps ops g) = applyOps ops g := by
  apply applyOps_fix
  intro op hop
  obtain ⟨i, hi⟩ := List.mem_iff_get.mp hop
  have hG : applyOps ops g
      = applyOps (ops.drop (i.1 + 1))
          (applyOp (applyOps (ops.take i.1) g) op) := by
    conv_lhs =>
      rw [← List.take_append_drop i.1 ops, ← List.get_cons_drop ops i]
    rw [applyOps_append, applyOps_cons, hi]
  cases op with
  | mergeNode n =>
    apply applyOp_fix_mergeNode
    rw [hG]
    exact mem_nodes_applyOps
      (by exact Finset.mem_insert_self n _) _
  | setAttrs p a =>
    apply applyOp_fix_setAttrs
    rw [hG]
    apply lookup_attrs_applyOps
    · exact lookupEntry_setEntry_self _ p a
    · intro o ho b hb
      obtain ⟨j, hj⟩ := List.mem_iff_get.mp (List.mem_of_mem_drop ho)
      have hk := hkc i j
      rw [hi, hj, hb] at hk
      exact (hk rfl).symm
  | matchMergeEdge s r d =>
    apply applyOp_fix_edge
    intro hs hd
    have hp := hpre i
    rw [hi] at hp
    have hp' : (s ∈ (applyOps ops g).nodes
          → s ∈ (applyOps (ops.take i.1) g).nodes)
        ∧ (d ∈ (applyOps ops g).nodes
          → d ∈ (applyOps (ops.take i.1) g).nodes) := hp
    have hs' := hp'.1 hs
    have hd' := hp'.2 hd
    have hmid : applyOp (applyOps (ops.take i.1) g) (Op.matchMergeEdge s r d)
        = { applyOps (ops.take i.1) g with
            edges := insert (s, r, d) (applyOps (ops.take i.1) g).edges } := by
      simp [applyOp, hs', hd']
    rw [hG, hmid]
    exact mem_edges_applyOps (Finset.mem_insert_self _ _) _

/-- `index_vault` factors into its statement list and its (graph-independent)
statistics. -/
theorem index_vault_spec (v : Vault) (g : Graph) :
    index_vault v g = (applyOps (vaultOps v) g, vaultStats v) := by
  have hpair :
      ∀ (ws : List WalkEntry) (g0 : Graph) (st0 : Stats),
        ws.foldl (fun gs e => (applyOps (entryOps e) gs.1, entryStats e gs.2)) (g0, st0)
          = (applyOps (ws.flatMap entryOps) g0,
             ws.foldl (fun st e => entryStats e st) st0) := by
    intro ws
    induction ws with
    | nil => intro g0 st0; simp [applyOps]
    | cons e t ih =>
      intro g0 st0
      simp only [List.foldl_cons, List.flatMap_cons, applyOps_append]
      exact ih _ _
  unfold index_vault vaultOps vaultStats
  rw [hpair, applyOps_append]

/-- C8: running the full index twice over the same unchanged directory
tree yields the same graph (and statistics) as running it once — the
second run merges only nodes and edges that already exist and SETs only
property values already present, so nothing is duplicated.  The two
hypotheses state what `os.walk` and the filesystem guarantee for the
statement list of a real run: directories are visited top-down, so each
CONTAINS MATCH finds its folder no later than the statement runs
(`Preconditioned`), and distinct files have distinct paths, so no two SET
statements disagree (`KeyConsistent`). -/
theorem index_vault_idempotent (v : Vault) (g : Graph)
    (hpre : Preconditioned (vaultOps v) g) (hkc : KeyConsistent (vaultOps v)) :
    index_vault v (index_vault v g).1 = index_vault v g := by
  rw [index_vault_spec v g]
  rw [index_vault_spec v (applyOps (vaultOps v) g)]
  rw [applyOps_idem _ _ hpre hkc]

/-- Witness for C8 at a concrete two-level vault. -/
theorem index_vault_idempotent_witness :
    index_vault c8Vault (index_vault c8Vault emptyGraph).1
      = index_vault c8Vault emptyGraph :=
  index_vault_idempotent c8Vault emptyGraph (by decide) (by decide)

/-! ## Edge reconciliation on re-synchronization (C1) -/

theorem mem_noteTargets {g : Graph} {p : FsPath} {r : RelType} {x : NodeId} :
    x ∈ noteTargets g p r ↔ (NodeId.note p, r, x) ∈ g.edges := by
  unfold noteTargets
  simp only [Finset.mem_image, Finset.mem_filter]
  constructor
  · rintro ⟨⟨e1, e2, e3⟩, ⟨he, h1, h2⟩, h3⟩
    simp only at h1 h2 h3
    subst h1; subst h2; subst h3
    exact he
  · intro h
    exact ⟨(NodeId.note p, r, x), ⟨h, rfl, rfl⟩, rfl⟩

/-- Effect of one vocabulary segment of `_create_content_relationships`:
when the note node already exists, the segment adds exactly the vocabulary
nodes and the note's edges to them, and touches no note properties. -/
theorem applyOps_vocabOps_spec (src : NodeId) (r : RelType) (vs : List NodeId)
    (g : Graph) (hsrc : src ∈ g.nodes) :
    ((applyOps (vocabOps src r vs) g).nodes = g.nodes ∪ vs.toFinset)
    ∧ ((applyOps (vocabOps src r vs) g).edges
        = g.edges ∪ (vs.map (fun v => (src, r, v))).toFinset)
    ∧ ((applyOps (vocabOps src r vs) g).attrs = g.attrs) := by
  induction vs generalizing g with
  | nil => simp [vocabOps, applyOps]
  | cons v tl ih =>
    have hstep : applyOps (vocabOps src r (v :: tl)) g
        = applyOps (vocabOps src r tl)
            { g with nodes := insert v g.nodes
                     edges := insert (src, r, v) g.edges } := by
      simp only [vocabOps, List.flatMap_cons, List.cons_append, List.nil_append]
      rw [applyOps_cons, applyOps_cons]
      congr 1
      show applyOp { g with nodes := insert v g.nodes } (Op.matchMergeEdge src r v) = _
      simp [applyOp, Finset.mem_insert_of_mem hsrc, Finset.mem_insert_self]
    rw [hstep]
    obtain ⟨hn, he, ha⟩ := ih
      { g with nodes := insert v g.nodes
               edges := insert (src, r, v) g.edges }
      (Finset.mem_insert_of_mem hsrc)
    refine ⟨?_, ?_, ?_⟩
    · rw [hn]
      ext y
      simp [List.toFinset_cons]
      try tauto
    · rw [he]
      ext y
      simp [List.toFinset_cons]
      try tauto
    · rw [ha]

/-- Membership in a vocabulary segment's edge set. -/
theorem mem_vocab_edge_set (p : FsPath) (rr r' : RelType) (x : NodeId)
    (vs : List NodeId) :
    ((NodeId.note p, rr, x) ∈ (vs.map (fun v => (NodeId.note p, r', v))).toFinset)
      ↔ (r' = rr ∧ x ∈ vs) := by
  simp only [List.mem_toFinset, List.mem_map]
  constructor
  · rintro ⟨v, hv, heq⟩
    injection heq with h1 h2
    injection h2 with h2a h2b
    exact ⟨h2a, h2b ▸ hv⟩
  · rintro ⟨hr, hx⟩
    exact ⟨x, hx, by rw [hr]⟩

/-- The edges out of the note after `_create_content_relationships` are
the previous ones plus exactly those implied by the current content. -/
theorem contentOps_edges_mem (g : Graph) (p : FsPath) (body : String)
    (fmTags : Option FmValue) (hnote : NodeId.note p ∈ g.nodes)
    (rr : RelType) (x : NodeId) :
    ((NodeId.note p, rr, x) ∈ (applyOps (contentOps p body fmTags) g).edges)
      ↔ ((NodeId.note p, rr, x) ∈ g.edges ∨ x ∈ impliedTargets body fmTags rr) := by
  unfold contentOps
  rw [applyOps_append, applyOps_append, applyOps_append]
  obtain ⟨hn1, he1, -⟩ := applyOps_vocabOps_spec (NodeId.note p) RelType.LINKS_TO
    ((extract_internal_links body).map NodeId.ilink) g hnote
  have hnote1 := hn1 ▸ Finset.mem_union_left _ hnote
  obtain ⟨hn2, he2, -⟩ := applyOps_vocabOps_spec (NodeId.note p) RelType.TAGGED_WITH
    ((extract_tags_list body fmTags).map NodeId.tag) _ hnote1
  have hnote2 := hn2 ▸ Finset.mem_union_left _ hnote1
  obtain ⟨hn3, he3, -⟩ := applyOps_vocabOps_spec (NodeId.note p) RelType.HAS_HEADER
    ((extract_headers body).map (fun h => NodeId.header h.2.1 h.1)) _ hnote2
  have hnote3 := hn3 ▸ Finset.mem_union_left _ hnote2
  obtain ⟨-, he4, -⟩ := applyOps_vocabOps_spec (NodeId.note p) RelType.LINKS_TO_EXTERNAL
    ((extract_external_links body).map (fun tu => NodeId.elink tu.2 tu.1)) _ hnote3
  rw [he4, he3, he2, he1]
  simp only [Finset.mem_union, mem_vocab_edge_set]
  cases rr <;> simp [impliedTargets] <;> tauto

/-- The first three statements of `fileOps` (note MERGE, SET, folder
CONTAINS MERGE) leave the note's outgoing edge sets unchanged and put the
note node in place. -/
theorem fileOps_unfold (g : Graph) (d : FsPath) (f : FileRec) :
    applyOps (fileOps d f) g
      = applyOps (contentOps (notePathOf d f) f.body f.fmTags)
          (applyOp
            { g with
                nodes := insert (NodeId.note (notePathOf d f)) g.nodes
                attrs := setEntry g.attrs (notePathOf d f) (attrsOf f) }
            (Op.matchMergeEdge (NodeId.folder d) RelType.CONTAINS
              (NodeId.note (notePathOf d f)))) := rfl

/-- C1 (amended): after a re-synchronization of a note through the
indexer's per-file pipeline, each of the note's outgoing edge sets equals
the union of its previous edge set and the edge set implied by the
current parsed content — stale edges are never removed (the source's
`_create_content_relationships` only MERGEs, there is no statement
deleting edges) — and every existing node, in particular every previously
referenced Tag node, still exists. -/
theorem resync_edges_accumulate (g : Graph) (d : FsPath) (f : FileRec) :
    (∀ r, noteTargets (applyOps (fileOps d f) g) (notePathOf d f) r
        = noteTargets g (notePathOf d f) r ∪ impliedTargets f.body f.fmTags r)
    ∧ (∀ n ∈ g.nodes, n ∈ (applyOps (fileOps d f) g).nodes) := by
  constructor
  · intro r
    set p := notePathOf d f with hp
    have hnote3 :
        NodeId.note p ∈ (applyOp
          { g with
              nodes := insert (NodeId.note p) g.nodes
              attrs := setEntry g.attrs p (attrsOf f) }
          (Op.matchMergeEdge (NodeId.folder d) RelType.CONTAINS
            (NodeId.note p))).nodes :=
      mem_nodes_applyOp (Finset.mem_insert_self _ _) _
    have hg3e : ∀ y,
        ((NodeId.note p, r, y) ∈ (applyOp
            { g with
                nodes := insert (NodeId.note p) g.nodes
                attrs := setEntry g.attrs p (attrsOf f) }
            (Op.matchMergeEdge (NodeId.folder d) RelType.CONTAINS
              (NodeId.note p))).edges)
          ↔ ((NodeId.note p, r, y) ∈ g.edges) := by
      intro y
      simp only [applyOp]
      split
      · simp [Finset.mem_insert]
      · exact Iff.rfl
    ext x
    rw [mem_noteTargets, Finset.mem_union, mem_noteTargets, fileOps_unfold,
      contentOps_edges_mem _ _ _ _ hnote3, hg3e]
  · intro n hn
    exact mem_nodes_applyOps (mem_nodes_applyOp hn _) _

/-- Witness for the amended C1 at the concrete re-synchronization. -/
theorem resync_edges_accumulate_witness :
    (noteTargets cexG2 cexNotePath RelType.TAGGED_WITH
        = noteTargets cexG1 cexNotePath RelType.TAGGED_WITH
          ∪ impliedTargets cexF2.body cexF2.fmTags RelType.TAGGED_WITH)
    ∧ NodeId.tag "a" ∈ cexG2.nodes :=
  ⟨(resync_edges_accumulate cexG1 cexDir cexF2).1 RelType.TAGGED_WITH,
   (resync_edges_accumulate cexG1 cexDir cexF2).2 (NodeId.tag "a") (by decide)⟩

/-- C1 (counterexample): the claim as stated fails — after re-indexing
the note whose tags changed from `{a, b}` to `{b, c}`, the TAGGED_WITH
edge set is not `{b, c}`: it is `{a, b, c}` (the stale edge to `a`
survives), while Tag node `a` indeed still exists. -/
theorem resync_stale_edge_counterexample :
    noteTargets cexG2 cexNotePath RelType.TAGGED_WITH
        ≠ {NodeId.tag "b", NodeId.tag "c"}
      ∧ noteTargets cexG2 cexNotePath RelType.TAGGED_WITH
        = {NodeId.tag "a", NodeId.tag "b", NodeId.tag "c"}
      ∧ NodeId.tag "a" ∈ cexG2.nodes := by
  refine ⟨by decide, by decide, by decide⟩

/-! ## Deletion (C5, C10) -/

theorem delete_note_of_absent {g : Graph} {p : FsPath}
    (h : NodeId.snote p ∉ g.nodes) : delete_note g p = g := by
  unfold delete_note
  rw [if_neg h]

theorem snote_not_mem_delete (g : Graph) (p : FsPath) :
    NodeId.snote p ∉ (delete_note g p).nodes := by
  unfold delete_note
  split
  · exact Finset.not_mem_erase _ _
  · next h => exact h

/-- C5 (evaluation of the code at the failing input): on a graph built by
indexing two notes that share Tag `x`, `delete_note` on note `a`'s path
is a complete no-op — the statement MATCHes a Note by the `file_path`
property, which the indexer-created Note (MERGEd by `path`) does not
carry, so the MATCH finds nothing.  The indexed Note node at the deleted
path and all of its TAGGED_WITH edges survive the deletion, contradicting
the claim that the Note node at that path and every edge touching it are
removed. -/
theorem delete_note_misses_indexed_note :
    NodeId.snote c5pA ∉ c5Graph.nodes
    ∧ delete_note c5Graph c5pA = c5Graph
    ∧ NodeId.note c5pA ∈ (delete_note c5Graph c5pA).nodes
    ∧ ((NodeId.note c5pA, RelType.TAGGED_WITH, NodeId.tag "x")
        ∈ (delete_note c5Graph c5pA).edges) := by
  refine ⟨by decide, by decide, by decide, by decide⟩

/-- C10: `delete_note` on a path at which the MATCH finds no Note node
(in particular, on a path for which no Note node of any kind exists)
leaves the graph completely unchanged and raises no error, and deletion
is idempotent. -/
theorem delete_note_absent_noop (g : Graph) (p : FsPath) :
    (NodeId.snote p ∉ g.nodes → delete_note g p = g)
    ∧ delete_note (delete_note g p) p = delete_note g p :=
  ⟨fun h => delete_note_of_absent h,
   delete_note_of_absent (snote_not_mem_delete g p)⟩

/-- Witness for C10 at a concrete graph with no note at the probed path. -/
theorem delete_note_absent_noop_witness :
    delete_note c10Graph c10Path = c10Graph
    ∧ delete_note (delete_note c10Graph c10Path) c10Path
        = delete_note c10Graph c10Path :=
  ⟨(delete_note_absent_noop c10Graph c10Path).1 (by decide),
   (delete_note_absent_noop c10Graph c10Path).2⟩

/-! ## Watcher event handling (C2, C3, C6) -/

/-- C2 (evaluation of the code at the failing input): processing a single
`modified` event already dispatches it — the handler invokes the
downstream synchronization immediately, with no timer and no quiet
period — and a second `modified` event arriving 1 second later (inside
the 2-second window) is dropped outright, so the dispatched call carries
the first event, not the most recent one, and no dispatch ever happens
after the window becomes quiet. -/
theorem watcher_dispatches_first_event_immediately :
    (watcherRun [((0 : ℤ), wPath, EventType.modified)] wInit).calls
        = [SyncCall.update wPath]
    ∧ (watcherRun [((0 : ℤ), wPath, EventType.modified),
        (1, wPath, EventType.modified)] wInit).calls
        = [SyncCall.update wPath] := by
  refine ⟨by decide, by decide⟩

/-- C3 (evaluation of the code at the failing input): a `deleted` event
arriving 1 second after a dispatched `modified` event on the same path is
dropped by the same throttle check — the deletion is never dispatched to
the synchronizer at all, rather than bypassing the debounce state. -/
theorem watcher_drops_deleted_event :
    (watcherRun [((0 : ℤ), wPath, EventType.modified),
        (1, wPath, EventType.deleted)] wInit).calls
      = [SyncCall.update wPath] := by
  decide

/-- C6: five `modified` events on one path, all inside one debounce
window of the first event, produce exactly one downstream synchronization
call for that path. -/
theorem debounce_coalesces (s0 : WatcherState) (p : FsPath) (t1 t2 t3 t4 t5 : ℤ)
    (hfresh : lookupEntry s0.last_modified p = none)
    (h2 : t2 - t1 < debounce_delay) (h3 : t3 - t1 < debounce_delay)
    (h4 : t4 - t1 < debounce_delay) (h5 : t5 - t1 < debounce_delay) :
    (watcherRun [(t1, p, EventType.modified), (t2, p, EventType.modified),
        (t3, p, EventType.modified), (t4, p, EventType.modified),
        (t5, p, EventType.modified)] s0).calls
      = s0.calls ++ [SyncCall.update p] := by
  have e1 : handle_file_change s0 t1 p EventType.modified
      = ⟨setEntry s0.last_modified p t1, s0.calls ++ [SyncCall.update p]⟩ := by
    unfold handle_file_change
    rw [hfresh]
    rfl
  have hlk : lookupEntry (setEntry s0.last_modified p t1) p = some t1 :=
    lookupEntry_setEntry_self _ _ _
  have edrop : ∀ t : ℤ, t - t1 < debounce_delay →
      handle_file_change
          ⟨setEntry s0.last_modified p t1, s0.calls ++ [SyncCall.update p]⟩
          t p EventType.modified
        = ⟨setEntry s0.last_modified p t1, s0.calls ++ [SyncCall.update p]⟩ := by
    intro t ht
    unfold handle_file_change
    simp [hlk, ht]
  show (handle_file_change (handle_file_change (handle_file_change
      (handle_file_change (handle_file_change s0 t1 p EventType.modified)
        t2 p EventType.modified) t3 p EventType.modified)
      t4 p EventType.modified) t5 p EventType.modified).calls = _
  rw [e1, edrop t2 h2, edrop t3 h3, edrop t4 h4, edrop t5 h5]

/-- Witness for C6 at a concrete five-event burst. -/
theorem debounce_coalesces_witness :
    (watcherRun [((0 : ℤ), wPath, EventType.modified),
        (0, wPath, EventType.modified), (0, wPath, EventType.modified),
        (0, wPath, EventType.modified), (0, wPath, EventType.modified)]
      wInit).calls = wInit.calls ++ [SyncCall.update wPath] :=
  debounce_coalesces wInit wPath 0 0 0 0 0 rfl (by decide) (by decide)
    (by decide) (by decide)

/-! ## The size limit (C4) -/

/-- C4 (amended): the `MAX_NOTE_SIZE` check exists only on the watcher
path — `_read_note_file` refuses an oversized file before parsing — while
the full-index path has no size check at all: whether the indexer's
per-file loop processes a file does not depend on its size in any way. -/
theorem size_check_watcher_only :
    (∀ f : WFile, MAX_NOTE_SIZE < f.size → read_note_file f = none)
    ∧ (∀ (f : FileRec) (n : Nat),
        fileIsProcessed { f with size := n } = fileIsProcessed f) := by
  constructor
  · intro f h
    unfold read_note_file
    rw [if_pos h]
  · intro f n
    rfl

/-- Witness for the amended C4. -/
theorem size_check_watcher_only_witness :
    read_note_file bigWFile = none
    ∧ fileIsProcessed { bigFile with size := 5 } = fileIsProcessed bigFile :=
  ⟨size_check_watcher_only.1 bigWFile (by decide),
   size_check_watcher_only.2 bigFile 5⟩

/-- C4 (counterexample): the claim as stated fails on the full-index
path — a file one byte over `MAX_NOTE_SIZE` is parsed (counted processed)
and its Note node is upserted. -/
theorem oversized_file_indexed_counterexample :
    MAX_NOTE_SIZE < bigFile.size
    ∧ (index_vault bigVault emptyGraph).2.notes_processed = 1
    ∧ NodeId.note ["/", "v", "big.md"] ∈ (index_vault bigVault emptyGraph).1.nodes := by
  refine ⟨by decide, by decide, by decide⟩

/-! ## Tag extraction on the two parse paths (C7) -/

theorem dedup_toFinset {α : Type} [DecidableEq α] (l : List α) :
    l.dedup.toFinset = l.toFinset := by
  ext a
  simp [List.mem_toFinset, List.mem_dedup]

/-- C7 (amended): the claimed union — frontmatter tags (whole string, or
list elements) united with the inline `#token` matches — is exactly what
the full-index parse path (`ObsidianIndexer.extract_tags`) computes; the
watcher parse path instead takes only the frontmatter field (`set` of it)
and ignores the note body entirely, so inline tags never contribute
there. -/
theorem tag_extraction_paths (content : String) (fmTags : Option FmValue) :
    extract_tags content fmTags = spec_tag_union content fmTags
    ∧ (∀ (f : WFile) (b : String),
        (read_note_file { f with body := b }).map (fun n => n.tags)
          = (read_note_file f).map (fun n => n.tags)) := by
  constructor
  · unfold extract_tags extract_tags_list spec_tag_union
    rw [dedup_toFinset, List.toFinset_append]
    cases fmTags with
    | none => simp [fm_tag_list]
    | some v => cases v <;> simp [fm_tag_list]
  · intro f b
    by_cases hs : MAX_NOTE_SIZE < f.size
    · simp [read_note_file, hs]
    · cases hw : watcher_fm_tags f.fmTags <;> simp [read_note_file, hs, hw]

/-- C7 (counterexample): on the watcher path the claim fails at a note
whose body is `#topic` with no frontmatter tags: the watcher extracts the
empty tag set, not the claimed union `{topic}`. -/
theorem watcher_tags_counterexample :
    (read_note_file c7WFile).map (fun n => n.tags)
      ≠ some (spec_tag_union c7WFile.body c7WFile.fmTags) := by
  decide

/-! ## Per-file error isolation in the index run (C9) -/

theorem fileStats_fields (f : FileRec) (st : Stats) :
    (fileStats f st).errors = st.errors + (if fileIsError f then 1 else 0)
    ∧ (fileStats f st).notes_processed
        = st.notes_processed + (if fileIsOk f then 1 else 0)
    ∧ (fileStats f st).notes_skipped
        = st.notes_skipped + (if fileIsProcessed f then 0 else 1) := by
  cases hsp : should_process_file f.name with
  | false => simp [fileStats, fileIsError, fileIsOk, fileIsProcessed, hsp]
  | true =>
    cases hre : (f.readFails || f.isEmpty) with
    | true => simp [fileStats, fileIsError, fileIsOk, fileIsProcessed, hsp, hre]
    | false =>
      cases hst : f.storeFails with
      | true => simp [fileStats, fileIsError, fileIsOk, fileIsProcessed, hsp, hre, hst]
      | false => simp [fileStats, fileIsError, fileIsOk, fileIsProcessed, hsp, hre, hst]

theorem foldl_fileStats_counts (files : List FileRec) (st : Stats) :
    ((files.foldl (fun st f => fileStats f st) st).errors
        = st.errors + files.countP fileIsError)
    ∧ ((files.foldl (fun st f => fileStats f st) st).notes_processed
        = st.notes_processed + files.countP fileIsOk)
    ∧ ((files.foldl (fun st f => fileStats f st) st).notes_skipped
        = st.notes_skipped + files.countP (fun f => !fileIsProcessed f)) := by
  induction files generalizing st with
  | nil => simp
  | cons f t ih =>
    obtain ⟨h1, h2, h3⟩ := ih (fileStats f st)
    obtain ⟨g1, g2, g3⟩ := fileStats_fields f st
    simp only [List.foldl_cons, List.countP_cons]
    refine ⟨?_, ?_, ?_⟩
    · rw [h1, g1]
      cases hb : fileIsError f <;> simp [hb] <;> omega
    · rw [h2, g2]
      cases hb : fileIsOk f <;> simp [hb] <;> omega
    · rw [h3, g3]
      cases hb : fileIsProcessed f <;> simp [hb] <;> omega

theorem entryStats_counts (e : WalkEntry) (st : Stats) :
    ((entryStats e st).errors = st.errors + e.files.countP fileIsError)
    ∧ ((entryStats e st).notes_processed
        = st.notes_processed + e.files.countP fileIsOk)
    ∧ ((entryStats e st).notes_skipped
        = st.notes_skipped + e.files.countP (fun f => !fileIsProcessed f)) := by
  unfold entryStats
  exact foldl_fileStats_counts e.files _

/-- C9 (amended): the walk of `index_vault` never aborts — every file of
every entry contributes exactly one outcome to the returned statistics:
a file the store fails on is caught by the per-file handler and counted
in `errors`; a file whose read or frontmatter parse fails (and a file
with an ineligible name) is absorbed inside the reader and counted in
`notes_skipped`, not in `errors`; every healthy eligible file is counted
processed.  In all cases a complete `Stats` record is returned. -/
theorem index_vault_error_isolation (v : Vault) (g : Graph) :
    ((index_vault v g).2.errors = (allFiles v).countP fileIsError)
    ∧ ((index_vault v g).2.notes_processed = (allFiles v).countP fileIsOk)
    ∧ ((index_vault v g).2.notes_skipped
        = (allFiles v).countP (fun f => !fileIsProcessed f)) := by
  rw [index_vault_spec]
  have key : ∀ (ws : List WalkEntry) (st : Stats),
      ((ws.foldl (fun st e => entryStats e st) st).errors
          = st.errors + (ws.flatMap (fun e => e.files)).countP fileIsError)
      ∧ ((ws.foldl (fun st e => entryStats e st) st).notes_processed
          = st.notes_processed + (ws.flatMap (fun e => e.files)).countP fileIsOk)
      ∧ ((ws.foldl (fun st e => entryStats e st) st).notes_skipped
          = st.notes_skipped
            + (ws.flatMap (fun e => e.files)).countP (fun f => !fileIsProcessed f)) := by
    intro ws
    induction ws with
    | nil => intro st; simp
    | cons e t ih =>
      intro st
      obtain ⟨h1, h2, h3⟩ := ih (entryStats e st)
      obtain ⟨g1, g2, g3⟩ := entryStats_counts e st
      simp only [List.foldl_cons, List.flatMap_cons, List.countP_append]
      exact ⟨by rw [h1, g1]; omega, by rw [h2, g2]; omega, by rw [h3, g3]; omega⟩
  have hk := key v.walk initStats
  simpa [vaultStats, allFiles, initStats] using hk

/-- C9 (counterexample): the claim as stated fails — a read failure is
caught inside `get_note_content` and counted as a skip, not as an error:
with a read-failing file followed by a healthy one, `errors` stays 0
(the claim says the failure increments it) while the walk continues and
the healthy file is still processed. -/
theorem read_failure_counted_skip_counterexample :
    c9bad.readFails = true
    ∧ (index_vault c9Vault emptyGraph).2.errors = 0
    ∧ (index_vault c9Vault emptyGraph).2.notes_skipped = 1
    ∧ (index_vault c9Vault emptyGraph).2.notes_processed = 1 := by
  refine ⟨by decide, by decide, by decide, by decide⟩

end GraphRAG
